/-
Verification of the sqinch catalog-analytics pipeline
(src/app/utils/sqinchProcessor.ts) against its specification.

The numeric domain of the source is the JavaScript number type; the
operations the pipeline performs (+, *, /, Math.round, <) never round
on the data scales at issue except through the explicit Math.round
calls, so we model numbers as exact rationals extended with the three
non-finite JavaScript values (Infinity, -Infinity, NaN), which arise
from the unguarded divisions in the source.
-/
import Mathlib

/-- A JavaScript number as used by the pipeline: an exact finite value,
one of the two infinities, or NaN. -/
inductive JSNum where
  | fin (q : ℚ)
  | posInf
  | negInf
  | nan
deriving DecidableEq, Repr, Inhabited

namespace JSNum

/-- JavaScript addition restricted to the values above. -/
def add : JSNum → JSNum → JSNum
  | nan, _ => nan
  | _, nan => nan
  | fin a, fin b => fin (a + b)
  | fin _, posInf => posInf
  | fin _, negInf => negInf
  | posInf, fin _ => posInf
  | negInf, fin _ => negInf
  | posInf, posInf => posInf
  | negInf, negInf => negInf
  | posInf, negInf => nan
  | negInf, posInf => nan

/-- JavaScript multiplication: zero times an infinity is NaN. -/
def mul : JSNum → JSNum → JSNum
  | nan, _ => nan
  | _, nan => nan
  | fin a, fin b => fin (a * b)
  | fin a, posInf => if 0 < a then posInf else if a < 0 then negInf else nan
  | fin a, negInf => if 0 < a then negInf else if a < 0 then posInf else nan
  | posInf, fin b => if 0 < b then posInf else if b < 0 then negInf else nan
  | negInf, fin b => if 0 < b then negInf else if b < 0 then posInf else nan
  | posInf, posInf => posInf
  | posInf, negInf => negInf
  | negInf, posInf => negInf
  | negInf, negInf => posInf

/-- JavaScript division: a nonzero finite value divided by zero gives a
signed infinity, zero divided by zero gives NaN, and an infinity divided
by an infinity gives NaN. -/
def div : JSNum → JSNum → JSNum
  | nan, _ => nan
  | _, nan => nan
  | fin a, fin b =>
      if b = 0 then (if 0 < a then posInf else if a < 0 then negInf else nan)
      else fin (a / b)
  | fin _, posInf => fin 0
  | fin _, negInf => fin 0
  | posInf, fin b => if b < 0 then negInf else posInf
  | negInf, fin b => if b < 0 then posInf else negInf
  | posInf, posInf => nan
  | posInf, negInf => nan
  | negInf, posInf => nan
  | negInf, negInf => nan

/-- JavaScript Math.round: rounds half toward positive infinity and is
the identity on the non-finite values. -/
def round : JSNum → JSNum
  | fin q => fin (⌊q + 1 / 2⌋ : ℤ)
  | posInf => posInf
  | negInf => negInf
  | nan => nan

/-- Boolean strict less-than with JavaScript NaN semantics: any
comparison against NaN is false. -/
def ltb : JSNum → JSNum → Bool
  | nan, _ => false
  | _, nan => false
  | fin a, fin b => decide (a < b)
  | fin _, posInf => true
  | fin _, negInf => false
  | posInf, _ => false
  | negInf, negInf => false
  | negInf, _ => true

end JSNum

/-- Left fold of JavaScript addition, the semantics of lodash sumBy over
already-projected values. -/
def jsum (l : List JSNum) : JSNum := l.foldl JSNum.add (JSNum.fin 0)

/-- The source pattern Math.round(x * 10) / 10 (one decimal place). -/
def roundTo1 (x : JSNum) : JSNum :=
  JSNum.div (JSNum.round (JSNum.mul x (JSNum.fin 10))) (JSNum.fin 10)

/-- The source pattern Math.round(x * 100) / 100 (two decimal places). -/
def roundTo2 (x : JSNum) : JSNum :=
  JSNum.div (JSNum.round (JSNum.mul x (JSNum.fin 100))) (JSNum.fin 100)

/-- First-occurrence deduplication of a key list: the iteration order of
the keys of a JavaScript object populated by lodash groupBy, and the
key set retained by lodash uniqBy. -/
def dedupKeys {κ : Type} [DecidableEq κ] (l : List κ) : List κ :=
  l.foldl (fun acc k => if k ∈ acc then acc else acc ++ [k]) []

/-- Lodash groupBy: each distinct key in first-occurrence order, paired
with the sublist of elements having that key, in input order. -/
def groupBy {α κ : Type} [DecidableEq κ] (key : α → κ) (l : List α) :
    List (κ × List α) :=
  (dedupKeys (l.map key)).map (fun k => (k, l.filter (fun x => decide (key x = k))))

/-- Insert into a descending-sorted list, after any element whose key is
not strictly smaller; used to model the stable lodash orderBy. -/
def insertDesc {α : Type} (key : α → JSNum) (x : α) : List α → List α
  | [] => [x]
  | y :: ys => if JSNum.ltb (key y) (key x) then x :: y :: ys else y :: insertDesc key x ys

/-- Lodash orderBy with a single key in descending direction: a stable
descending sort. -/
def orderByDesc {α : Type} (key : α → JSNum) (l : List α) : List α :=
  l.foldl (fun acc x => insertDesc key x acc) []

/-- Lodash maxBy: the first element whose key is maximal, skipping
elements whose key is NaN; none on an empty list. -/
def jmaxBy {α : Type} (key : α → JSNum) (l : List α) : Option α :=
  l.foldl (fun best y =>
    match key y, best with
    | JSNum.nan, _ => best
    | _, none => some y
    | ky, some b => if JSNum.ltb (key b) ky then some y else best) none

/-- Recursive worker for JavaScript String.prototype.split with a
nonempty separator; structural fuel keeps it kernel-computable. -/
def splitGo (sep : List Char) : ℕ → List Char → List Char → List (List Char)
  | 0, s, acc => [acc.reverse ++ s]
  | n + 1, s, acc =>
    match s with
    | [] => [acc.reverse]
    | c :: rest =>
      if sep.isPrefixOf (c :: rest) then
        acc.reverse :: splitGo sep n ((c :: rest).drop sep.length) []
      else splitGo sep n rest (c :: acc)

/-- JavaScript String.prototype.split on a string separator: leftmost,
non-overlapping matches. -/
def jsSplitOn (s sep : String) : List String :=
  if sep.data = [] then [s] else (splitGo sep.data (s.data.length + 1) s.data []).map String.mk

/-- A row of the product catalog file, after numeric parsing. -/
structure ProductRecord where
  productName : String
  productSalesRevenue : ℚ
  unitsSold : ℚ
  squareInches : ℚ
  pageNumber : ℚ
  catalogPrice : ℚ
deriving DecidableEq, Repr, Inhabited

/-- A row of the customer purchase file, after numeric parsing. -/
structure CustomerRecord where
  customerEmail : String
  productName : String
  unitsPurchased : ℚ
  revenueGenerated : ℚ
  ageRange : String
  incomeTier : String
  location : String
deriving DecidableEq, Repr, Inhabited

/-- A product row together with the derived efficiency fields. -/
structure EnrichedProduct extends ProductRecord where
  revenuePerSqIn : JSNum
  spaceEfficiencyIndex : JSNum
  catalogAvgRevenuePerSqIn : JSNum
  pageAvgRevenuePerSqIn : JSNum
  pagePositionRatio : JSNum
deriving DecidableEq, Repr, Inhabited

/-- One output row of the segment aggregation. -/
structure SegmentAnalysis where
  segment : String
  customers : ℕ
  totalRevenue : ℚ
  weightedAvgSEI : JSNum
  spaceConsumed : ℚ
  revenuePerSqIn : JSNum
deriving DecidableEq, Repr, Inhabited

/-- One output row of the affinity analysis. -/
structure AffinityAnalysis where
  anchorProduct : String
  anchorSEI : JSNum
  boughtWithProduct : String
  boughtWithSEI : JSNum
  coPurchases : ℕ
  combinedEfficiency : JSNum
deriving DecidableEq, Repr, Inhabited

/-- One output row of the customer profiling. -/
structure CustomerProfile where
  customerEmail : String
  ageRange : String
  incomeTier : String
  productsBought : ℕ
  totalSpent : ℚ
  avgSEI : JSNum
  revenueWeightedSEI : JSNum
deriving DecidableEq, Repr, Inhabited

/-- Exact-name lookup of a product, as the source's find on the
enriched product list. -/
def findProduct (productMetrics : List EnrichedProduct) (name : String) :
    Option EnrichedProduct :=
  productMetrics.find? (fun p => decide (p.productName = name))

/-- calculateProductMetrics from the source: catalog-wide average
revenue per square inch, then per-product revenue per square inch and
space-efficiency index; the page fields are zero placeholders. -/
def calculateProductMetrics (productData : List ProductRecord) : List EnrichedProduct :=
  let totalRevenue := (productData.map (·.productSalesRevenue)).sum
  let totalSquareInches := (productData.map (·.squareInches)).sum
  let catalogAvgRevenuePerSqIn := JSNum.div (.fin totalRevenue) (.fin totalSquareInches)
  productData.map (fun product =>
    let revenuePerSqIn := JSNum.div (.fin product.productSalesRevenue) (.fin product.squareInches)
    let spaceEfficiencyIndex := JSNum.mul (JSNum.div revenuePerSqIn catalogAvgRevenuePerSqIn) (.fin 100)
    { product with
      revenuePerSqIn := revenuePerSqIn
      spaceEfficiencyIndex := spaceEfficiencyIndex
      catalogAvgRevenuePerSqIn := catalogAvgRevenuePerSqIn
      pageAvgRevenuePerSqIn := .fin 0
      pagePositionRatio := .fin 0 })

/-- calculatePageMetrics from the source. The source groups by page
number and looks each product's page up in the resulting map; the group
retrieved for a product is exactly the sublist of products sharing its
page number, which is inlined here. -/
def calculatePageMetrics (enrichedProducts : List EnrichedProduct) : List EnrichedProduct :=
  enrichedProducts.map (fun product =>
    let productsOnPage := enrichedProducts.filter (fun q => decide (q.pageNumber = product.pageNumber))
    let totalPageRevenue := (productsOnPage.map (·.productSalesRevenue)).sum
    let totalPageSquareInches := (productsOnPage.map (·.squareInches)).sum
    let pageAvgRevenuePerSqIn := JSNum.div (.fin totalPageRevenue) (.fin totalPageSquareInches)
    { product with
      pageAvgRevenuePerSqIn := pageAvgRevenuePerSqIn
      pagePositionRatio := JSNum.div product.revenuePerSqIn pageAvgRevenuePerSqIn })

/-- A customer record joined to its product's efficiency index and
allocated area, the intermediate rows of generateSegmentAnalysis. -/
structure JoinedRecord extends CustomerRecord where
  spaceEfficiencyIndex : JSNum
  squareInches : ℚ
deriving DecidableEq, Repr, Inhabited

/-- The join step of generateSegmentAnalysis: records whose product
name has no exact match are dropped. -/
def joinCustomer (productMetrics : List EnrichedProduct) (c : CustomerRecord) :
    Option JoinedRecord :=
  (findProduct productMetrics c.productName).map (fun p =>
    { toCustomerRecord := c
      spaceEfficiencyIndex := p.spaceEfficiencyIndex
      squareInches := p.squareInches })

/-- The derived segment label, income tier and location joined by the
fixed format string of the source. -/
def segmentLabel (r : JoinedRecord) : String :=
  r.incomeTier ++ " Income " ++ r.location

/-- generateSegmentAnalysis from the source: join, group by the segment
label, aggregate, and sort descending by revenue per square inch. -/
def generateSegmentAnalysis (customerData : List CustomerRecord)
    (productMetrics : List EnrichedProduct) : List SegmentAnalysis :=
  let customerProductJoined := customerData.filterMap (joinCustomer productMetrics)
  let segmentGroups := groupBy segmentLabel customerProductJoined
  let segmentAnalysis := segmentGroups.map (fun g =>
    let records := g.2
    let uniqueCustomers := (dedupKeys (records.map (·.customerEmail))).length
    let totalRevenue := (records.map (·.revenueGenerated)).sum
    let totalSpaceConsumed := (records.map (fun r => r.unitsPurchased * r.squareInches)).sum
    let weightedSEI := JSNum.div
      (jsum (records.map (fun r => JSNum.mul (.fin r.revenueGenerated) r.spaceEfficiencyIndex)))
      (.fin totalRevenue)
    { segment := g.1
      customers := uniqueCustomers
      totalRevenue := totalRevenue
      weightedAvgSEI := roundTo1 weightedSEI
      spaceConsumed := totalSpaceConsumed
      revenuePerSqIn := roundTo2 (JSNum.div (.fin totalRevenue) (.fin totalSpaceConsumed)) })
  orderByDesc (·.revenuePerSqIn) segmentAnalysis

/-- A candidate co-purchase: one customer and the product names of two
distinct purchase rows. -/
structure CoPurchase where
  customer : String
  product1 : String
  product2 : String
deriving DecidableEq, Repr, Inhabited

/-- The nested pair loop of generateAffinityAnalysis: all pairs of
distinct row indices i less than j, in loop order. -/
def pairsFrom (customerEmail : String) : List CustomerRecord → List CoPurchase
  | [] => []
  | p :: rest =>
      rest.map (fun q => { customer := customerEmail, product1 := p.productName, product2 := q.productName })
        ++ pairsFrom customerEmail rest

/-- The candidate co-purchase list of generateAffinityAnalysis: group
customer records by email and enumerate pairs for every customer with
more than one purchase row. -/
def coPurchasesOf (customerData : List CustomerRecord) : List CoPurchase :=
  ((groupBy (·.customerEmail) customerData).map (fun g =>
    if 1 < g.2.length then pairsFrom g.1 g.2 else [])).flatten

/-- The normalized affinity bucket key: the two product names sorted
lexicographically and joined by the separator of the source. -/
def pairKey (a b : String) : String :=
  if b.data < a.data then b ++ " + " ++ a else a ++ " + " ++ b

/-- generateAffinityAnalysis from the source: bucket candidate pairs by
normalized key, split each key back into two names, look both up, drop
the bucket if either lookup fails, and sort by combined efficiency. -/
def generateAffinityAnalysis (customerData : List CustomerRecord)
    (productMetrics : List EnrichedProduct) : List AffinityAnalysis :=
  let coPurchases := coPurchasesOf customerData
  let affinityGroups := groupBy (fun r => pairKey r.product1 r.product2) coPurchases
  let affinityAnalysis := affinityGroups.filterMap (fun g =>
    match jsSplitOn g.1 " + " with
    | product1 :: product2 :: _ =>
      match findProduct productMetrics product1, findProduct productMetrics product2 with
      | some product1Metrics, some product2Metrics =>
        some { anchorProduct := product1
               anchorSEI := roundTo1 product1Metrics.spaceEfficiencyIndex
               boughtWithProduct := product2
               boughtWithSEI := roundTo1 product2Metrics.spaceEfficiencyIndex
               coPurchases := g.2.length
               combinedEfficiency := roundTo1 (JSNum.div
                 (JSNum.add product1Metrics.spaceEfficiencyIndex product2Metrics.spaceEfficiencyIndex)
                 (.fin 2)) }
      | _, _ => none
    | _ => none)
  orderByDesc (·.combinedEfficiency) affinityAnalysis

/-- A customer record joined to its product's efficiency index, the
intermediate rows of generateCustomerProfiles. -/
structure EnrichedCustomer extends CustomerRecord where
  spaceEfficiencyIndex : JSNum
deriving DecidableEq, Repr, Inhabited

/-- generateCustomerProfiles from the source: join, group by email,
aggregate each group, take demographics from the first row, and sort
descending by revenue-weighted efficiency index. -/
def generateCustomerProfiles (customerData : List CustomerRecord)
    (productMetrics : List EnrichedProduct) : List CustomerProfile :=
  let enrichedCustomerData := customerData.filterMap (fun c =>
    (findProduct productMetrics c.productName).map (fun p =>
      { toCustomerRecord := c, spaceEfficiencyIndex := p.spaceEfficiencyIndex : EnrichedCustomer }))
  let customerGroups := groupBy (·.customerEmail) enrichedCustomerData
  let customerProfiles := customerGroups.map (fun g =>
    let purchases := g.2
    let totalSpent := (purchases.map (·.revenueGenerated)).sum
    let avgSEI := JSNum.div (jsum (purchases.map (·.spaceEfficiencyIndex))) (.fin purchases.length)
    let revenueWeightedSEI := JSNum.div
      (jsum (purchases.map (fun p => JSNum.mul (.fin p.revenueGenerated) p.spaceEfficiencyIndex)))
      (.fin totalSpent)
    let customerInfo := purchases.headI
    { customerEmail := g.1
      ageRange := customerInfo.ageRange
      incomeTier := customerInfo.incomeTier
      productsBought := purchases.length
      totalSpent := totalSpent
      avgSEI := roundTo1 avgSEI
      revenueWeightedSEI := roundTo1 revenueWeightedSEI })
  orderByDesc (·.revenueWeightedSEI) customerProfiles

/-- The segment block of the insight summary. -/
structure SegmentInsights where
  topSegment : Option SegmentAnalysis
  bottomSegment : Option SegmentAnalysis
  highestEfficiencySegment : Option SegmentAnalysis
  totalSegments : ℕ
deriving DecidableEq, Repr, Inhabited

/-- The affinity block of the insight summary. -/
structure AffinityInsights where
  topAffinity : Option AffinityAnalysis
  totalAffinityPairs : ℕ
  highEfficiencyPairs : ℕ
deriving DecidableEq, Repr, Inhabited

/-- The customer block of the insight summary. -/
structure CustomerInsights where
  topCustomer : Option CustomerProfile
  avgCustomerSEI : JSNum
  multiProductCustomers : ℕ
  totalCustomers : ℕ
deriving DecidableEq, Repr, Inhabited

/-- The full insight summary handed to the narrative layer. -/
structure InsightSummaries where
  segmentInsights : SegmentInsights
  affinityInsights : AffinityInsights
  customerInsights : CustomerInsights
deriving DecidableEq, Repr, Inhabited

/-- generateInsightSummaries from the source: pure selection over the
three analysis tables; out-of-range indexing is an absent value. -/
def generateInsightSummaries (segmentAnalysis : List SegmentAnalysis)
    (affinityAnalysis : List AffinityAnalysis)
    (customerProfiles : List CustomerProfile) : InsightSummaries :=
  { segmentInsights :=
      { topSegment := segmentAnalysis.head?
        bottomSegment := segmentAnalysis.getLast?
        highestEfficiencySegment := jmaxBy (·.weightedAvgSEI) segmentAnalysis
        totalSegments := segmentAnalysis.length }
    affinityInsights :=
      { topAffinity := affinityAnalysis.head?
        totalAffinityPairs := affinityAnalysis.length
        highEfficiencyPairs := (affinityAnalysis.filter (fun pair =>
          JSNum.ltb (.fin 150) pair.combinedEfficiency)).length }
    customerInsights :=
      { topCustomer := customerProfiles.head?
        avgCustomerSEI := JSNum.div (jsum (customerProfiles.map (·.avgSEI)))
          (.fin customerProfiles.length)
        multiProductCustomers := (customerProfiles.filter (fun c => decide (1 < c.productsBought))).length
        totalCustomers := customerProfiles.length } }

/-- The success or failure result of the pipeline entry point. -/
structure AnalysisData where
  productMetrics : List EnrichedProduct
  segmentAnalysis : List SegmentAnalysis
  affinityAnalysis : List AffinityAnalysis
  customerProfiles : List CustomerProfile
  insightSummaries : InsightSummaries
deriving DecidableEq, Repr, Inhabited

/-- The result structure returned by processFullAnalysis. -/
structure ProcessingResults where
  success : Bool
  data : Option AnalysisData
  error : Option String
deriving DecidableEq, Repr, Inhabited

/-- processFullAnalysis from the source, on already-parsed record sets.
Every operation of the pipeline body is total, so the catch branch of
the source is unreachable and the failure constructor is never built. -/
def processFullAnalysis (productData : List ProductRecord)
    (customerData : List CustomerRecord) : ProcessingResults :=
  let productMetrics := calculateProductMetrics productData
  let enrichedProducts := calculatePageMetrics productMetrics
  let segmentAnalysis := generateSegmentAnalysis customerData enrichedProducts
  let affinityAnalysis := generateAffinityAnalysis customerData enrichedProducts
  let customerProfiles := generateCustomerProfiles customerData enrichedProducts
  let insightSummaries := generateInsightSummaries segmentAnalysis affinityAnalysis customerProfiles
  { success := true
    data := some
      { productMetrics := enrichedProducts
        segmentAnalysis := segmentAnalysis
        affinityAnalysis := affinityAnalysis
        customerProfiles := customerProfiles
        insightSummaries := insightSummaries }
    error := none }

section Lemmas

variable {α κ : Type} [DecidableEq κ]

/-- Membership in the first-occurrence deduplication, generalized over
the accumulator of the fold. -/
theorem mem_dedupKeys_foldl (l : List κ) (acc : List κ) (a : κ) :
    a ∈ l.foldl (fun acc k => if k ∈ acc then acc else acc ++ [k]) acc ↔ a ∈ acc ∨ a ∈ l := by
  induction l generalizing acc with
  | nil => simp
  | cons k ks ih =>
    simp only [List.foldl_cons]
    by_cases h : k ∈ acc
    · rw [if_pos h, ih, List.mem_cons]
      constructor
      · rintro (ha | hks)
        · exact Or.inl ha
        · exact Or.inr (Or.inr hks)
      · rintro (ha | rfl | hks)
        · exact Or.inl ha
        · exact Or.inl h
        · exact Or.inr hks
    · rw [if_neg h, ih]
      simp only [List.mem_append, List.mem_singleton, List.mem_cons]
      tauto

/-- Membership in dedupKeys is membership in the original list. -/
theorem mem_dedupKeys (l : List κ) (a : κ) : a ∈ dedupKeys l ↔ a ∈ l := by
  rw [dedupKeys, mem_dedupKeys_foldl]
  simp

/-- The deduplicated key list has no duplicates, generalized over the
accumulator of the fold. -/
theorem nodup_dedupKeys_foldl (l : List κ) (acc : List κ) (h : acc.Nodup) :
    (l.foldl (fun acc k => if k ∈ acc then acc else acc ++ [k]) acc).Nodup := by
  induction l generalizing acc with
  | nil => exact h
  | cons k ks ih =>
    simp only [List.foldl_cons]
    by_cases hk : k ∈ acc
    · rw [if_pos hk]; exact ih acc h
    · rw [if_neg hk]
      refine ih _ ?_
      simp [List.nodup_append, h, hk]

/-- The deduplicated key list has no duplicates. -/
theorem nodup_dedupKeys (l : List κ) : (dedupKeys l).Nodup :=
  nodup_dedupKeys_foldl l [] List.nodup_nil

/-- Every group produced by groupBy is the filter of the input by its
key, and the key occurs among the mapped keys. -/
theorem groupBy_mem_eq {key : α → κ} {l : List α} {k : κ} {g : List α}
    (h : (k, g) ∈ groupBy key l) :
    g = l.filter (fun x => decide (key x = k)) ∧ k ∈ l.map key := by
  rw [groupBy] at h
  obtain ⟨k', hk', hpair⟩ := List.mem_map.mp h
  have hk : k' = k := congrArg Prod.fst hpair
  have hg : l.filter (fun x => decide (key x = k')) = g := congrArg Prod.snd hpair
  subst hk
  exact ⟨hg.symm, (mem_dedupKeys _ _).mp hk'⟩

/-- Every group produced by groupBy is nonempty. -/
theorem groupBy_mem_ne_nil {key : α → κ} {l : List α} {k : κ} {g : List α}
    (h : (k, g) ∈ groupBy key l) : g ≠ [] := by
  obtain ⟨hg, hk⟩ := groupBy_mem_eq h
  obtain ⟨x, hx, hkey⟩ := List.mem_map.mp hk
  have : x ∈ l.filter (fun x => decide (key x = k)) :=
    List.mem_filter.mpr ⟨hx, by simp [hkey]⟩
  rw [hg]
  exact List.ne_nil_of_mem this

/-- Membership in the descending insertion. -/
theorem mem_insertDesc {key : α → JSNum} {x a : α} {l : List α} :
    a ∈ insertDesc key x l ↔ a = x ∨ a ∈ l := by
  induction l with
  | nil => simp [insertDesc]
  | cons y ys ih =>
    rw [insertDesc]
    split
    · simp [List.mem_cons]
    · simp only [List.mem_cons, ih]
      tauto

/-- Membership in the stable descending sort, generalized over the
accumulator of the fold. -/
theorem mem_orderByDesc_foldl {key : α → JSNum} (l : List α) (acc : List α) (a : α) :
    a ∈ l.foldl (fun acc x => insertDesc key x acc) acc ↔ a ∈ acc ∨ a ∈ l := by
  induction l generalizing acc with
  | nil => simp
  | cons x xs ih =>
    simp only [List.foldl_cons, ih, mem_insertDesc, List.mem_cons]
    tauto

/-- The descending sort is membership-preserving. -/
theorem mem_orderByDesc {key : α → JSNum} {l : List α} {a : α} :
    a ∈ orderByDesc key l ↔ a ∈ l := by
  rw [orderByDesc, mem_orderByDesc_foldl]
  simp

/-- Keeping only the elements on which an option-valued map succeeds
does not change its filterMap. -/
theorem filterMap_filter_isSome {β : Type} (f : α → Option β) (l : List α) :
    (l.filter (fun x => (f x).isSome)).filterMap f = l.filterMap f := by
  induction l with
  | nil => rfl
  | cons x xs ih =>
    cases h : f x with
    | none => simp [List.filter_cons, List.filterMap_cons, h, ih]
    | some b => simp [List.filter_cons, List.filterMap_cons, h, ih]

/-- A list whose count of a predicate is one filters to the singleton
of any member satisfying the predicate. -/
theorem filter_eq_singleton_of_countP {p : α → Bool} {l : List α} {a : α}
    (h1 : l.countP p = 1) (ha : a ∈ l) (hpa : p a = true) :
    l.filter p = [a] := by
  have hlen : (l.filter p).length = 1 := by
    rw [← h1, List.countP_eq_length_filter]
  obtain ⟨b, hb⟩ := List.length_eq_one.mp hlen
  have hmem : a ∈ l.filter p := List.mem_filter.mpr ⟨ha, hpa⟩
  rw [hb] at hmem
  simp only [List.mem_singleton] at hmem
  rw [hb, hmem]

end Lemmas

/-- Multiplication by a finite value distributes over JavaScript
addition, including through the non-finite values. -/
theorem JSNum.mul_fin_add (r : ℚ) (x y : JSNum) :
    JSNum.mul (JSNum.fin r) (JSNum.add x y) =
      JSNum.add (JSNum.mul (JSNum.fin r) x) (JSNum.mul (JSNum.fin r) y) := by
  rcases lt_trichotomy r 0 with hr | rfl | hr
  · cases x <;> cases y <;>
      simp [JSNum.mul, JSNum.add, hr, lt_asymm hr, mul_add]
  · cases x <;> cases y <;>
      simp [JSNum.mul, JSNum.add, lt_irrefl, mul_add]
  · cases x <;> cases y <;>
      simp [JSNum.mul, JSNum.add, hr, lt_asymm hr, mul_add]

/-- Scaling every summand by a finite value scales a JavaScript sum,
generalized over the accumulator of the fold. -/
theorem foldl_add_map_mulFin (r : ℚ) (l : List JSNum) (acc : JSNum) :
    (l.map (fun s => JSNum.mul (JSNum.fin r) s)).foldl JSNum.add (JSNum.mul (JSNum.fin r) acc) =
      JSNum.mul (JSNum.fin r) (l.foldl JSNum.add acc) := by
  induction l generalizing acc with
  | nil => rfl
  | cons x xs ih =>
    simp only [List.map_cons, List.foldl_cons, ← JSNum.mul_fin_add]
    exact ih (JSNum.add acc x)

/-- Scaling every summand by a finite value scales a JavaScript sum. -/
theorem jsum_map_mulFin (r : ℚ) (l : List JSNum) :
    jsum (l.map (fun s => JSNum.mul (JSNum.fin r) s)) = JSNum.mul (JSNum.fin r) (jsum l) := by
  have h0 : JSNum.mul (JSNum.fin r) (JSNum.fin 0) = JSNum.fin 0 := by
    simp [JSNum.mul]
  rw [jsum, jsum, ← foldl_add_map_mulFin, h0]

/-- Cancelling a common nonzero finite factor between numerator and a
positive denominator in a JavaScript division. -/
theorem JSNum.div_mulFin_cancel (r n : ℚ) (S : JSNum) (hr : r ≠ 0) (hn : 0 < n) :
    JSNum.div (JSNum.mul (JSNum.fin r) S) (JSNum.fin (n * r)) = JSNum.div S (JSNum.fin n) := by
  have hnr : n * r ≠ 0 := mul_ne_zero (ne_of_gt hn) hr
  have hnz : n ≠ 0 := ne_of_gt hn
  rcases hr.lt_or_lt with hneg | hpos
  · cases S with
    | fin s =>
      simp only [JSNum.mul, JSNum.div, if_neg hnr, if_neg hnz]
      congr 1
      field_simp
      ring
    | posInf =>
      have hnr2 : n * r < 0 := mul_neg_of_pos_of_neg hn hneg
      simp [JSNum.mul, JSNum.div, hneg, not_lt_of_gt hneg, hnr2, not_lt_of_gt hn]
    | negInf =>
      have hnr2 : n * r < 0 := mul_neg_of_pos_of_neg hn hneg
      simp [JSNum.mul, JSNum.div, hneg, not_lt_of_gt hneg, hnr2, not_lt_of_gt hn]
    | nan => simp [JSNum.mul, JSNum.div]
  · cases S with
    | fin s =>
      simp only [JSNum.mul, JSNum.div, if_neg hnr, if_neg hnz]
      congr 1
      field_simp
      ring
    | posInf =>
      have hnr2 : 0 < n * r := mul_pos hn hpos
      simp [JSNum.mul, JSNum.div, hpos, not_lt_of_gt hnr2, not_lt_of_gt hn]
    | negInf =>
      have hnr2 : 0 < n * r := mul_pos hn hpos
      simp [JSNum.mul, JSNum.div, hpos, not_lt_of_gt hnr2, not_lt_of_gt hn]
    | nan => simp [JSNum.mul, JSNum.div]

/-- Every candidate pair generated for a customer carries that
customer's identifier. -/
theorem pairsFrom_customer {e : String} {l : List CustomerRecord} {cp : CoPurchase}
    (h : cp ∈ pairsFrom e l) : cp.customer = e := by
  induction l with
  | nil => simp [pairsFrom] at h
  | cons p rest ih =>
    rw [pairsFrom] at h
    rcases List.mem_append.mp h with hmap | hrec
    · obtain ⟨q, _, rfl⟩ := List.mem_map.mp hmap
      rfl
    · exact ih hrec

/-- The nested pair loop over k rows produces k choose 2 candidate
pairs. -/
theorem pairsFrom_length (e : String) (l : List CustomerRecord) :
    (pairsFrom e l).length = l.length.choose 2 := by
  induction l with
  | nil => simp [pairsFrom]
  | cons p rest ih =>
    rw [pairsFrom]
    simp only [List.length_append, List.length_map, ih, List.length_cons]
    rw [Nat.choose_succ_succ rest.length 1, Nat.choose_one_right]

/-- A list with at most one element generates no candidate pairs. -/
theorem pairsFrom_eq_nil {e : String} {l : List CustomerRecord} (h : l.length ≤ 1) :
    pairsFrom e l = [] := by
  match l, h with
  | [], _ => rfl
  | [x], _ => simp [pairsFrom]

/-- Filtering distributes over flattening. -/
theorem filter_flatten {α : Type} (p : α → Bool) (L : List (List α)) :
    L.flatten.filter p = (L.map (fun l => l.filter p)).flatten := by
  induction L with
  | nil => rfl
  | cons l ls ih => simp [List.filter_append, ih]

/-- Filtering the flattened per-group pair contributions by one
customer identifier keeps exactly that customer's group contribution,
for any group list with distinct keys whose groups are the filters of
the input by their key. -/
theorem flatten_pairs_filter_aux (cd : List CustomerRecord) (email : String)
    (gs : List (String × List CustomerRecord))
    (hnd : (gs.map Prod.fst).Nodup)
    (hgs : ∀ p ∈ gs, p.2 = cd.filter (fun c => decide (c.customerEmail = p.1))) :
    ((gs.map (fun g => if 1 < g.2.length then pairsFrom g.1 g.2 else [])).flatten).filter
        (fun cp => decide (cp.customer = email)) =
      if email ∈ gs.map Prod.fst then
        pairsFrom email (cd.filter (fun c => decide (c.customerEmail = email)))
      else [] := by
  induction gs with
  | nil => simp
  | cons hd tl ih =>
    obtain ⟨k, g⟩ := hd
    simp only [List.map_cons, List.nodup_cons] at hnd
    obtain ⟨hk, hnd'⟩ := hnd
    have hg : g = cd.filter (fun c => decide (c.customerEmail = k)) :=
      hgs (k, g) (List.mem_cons_self _ _)
    have htl : ∀ p ∈ tl, p.2 = cd.filter (fun c => decide (c.customerEmail = p.1)) :=
      fun p hp => hgs p (List.mem_cons_of_mem _ hp)
    simp only [List.map_cons, List.flatten_cons, List.filter_append, ih hnd' htl]
    by_cases hke : k = email
    · subst hke
      rw [if_neg hk, if_pos (List.mem_cons_self _ _), List.append_nil]
      by_cases hlen : 1 < g.length
      · rw [if_pos hlen, List.filter_eq_self.mpr, hg]
        intro cp hcp
        simp [pairsFrom_customer hcp]
      · rw [if_neg hlen, List.filter_nil, ← hg, pairsFrom_eq_nil (Nat.not_lt.mp hlen)]
    · have hfirst :
          ((if 1 < g.length then pairsFrom k g else []).filter
            (fun cp => decide (cp.customer = email))) = [] := by
        split
        · apply List.filter_eq_nil_iff.mpr
          intro cp hcp
          simp [pairsFrom_customer hcp, hke]
        · exact List.filter_nil _
      rw [hfirst, List.nil_append]
      have hmemiff : email ∈ k :: tl.map Prod.fst ↔ email ∈ tl.map Prod.fst := by
        simp only [List.mem_cons]
        constructor
        · rintro (rfl | h)
          · exact absurd rfl hke
          · exact h
        · exact Or.inr
      rw [if_congr hmemiff rfl rfl]

/-- The candidate pairs of one customer are exactly the pair loop run
on that customer's rows. -/
theorem coPurchases_filter_eq (cd : List CustomerRecord) (email : String) :
    (coPurchasesOf cd).filter (fun cp => decide (cp.customer = email)) =
      pairsFrom email (cd.filter (fun c => decide (c.customerEmail = email))) := by
  rw [coPurchasesOf]
  have hfst : (groupBy (fun c : CustomerRecord => c.customerEmail) cd).map Prod.fst =
      dedupKeys (cd.map (·.customerEmail)) := by
    rw [groupBy, List.map_map]
    simp [Function.comp_def]
  have hnd : ((groupBy (fun c : CustomerRecord => c.customerEmail) cd).map Prod.fst).Nodup := by
    rw [hfst]; exact nodup_dedupKeys _
  have hgs : ∀ p ∈ groupBy (fun c : CustomerRecord => c.customerEmail) cd,
      p.2 = cd.filter (fun c => decide (c.customerEmail = p.1)) := by
    rintro ⟨k, g⟩ hp
    exact (groupBy_mem_eq hp).1
  rw [flatten_pairs_filter_aux cd email _ hnd hgs]
  by_cases hmem : email ∈ (groupBy (fun c : CustomerRecord => c.customerEmail) cd).map Prod.fst
  · rw [if_pos hmem]
  · rw [if_neg hmem]
    have : cd.filter (fun c => decide (c.customerEmail = email)) = [] := by
      apply List.filter_eq_nil_iff.mpr
      intro c hc
      simp only [decide_eq_true_eq]
      intro hceq
      apply hmem
      rw [hfst, mem_dedupKeys]
      exact List.mem_map.mpr ⟨c, hc, hceq⟩
    rw [this, pairsFrom_eq_nil (by simp)]

/-- C7: a customer with k purchase rows contributes exactly k choose 2
candidate pairs to the affinity analysis; in particular a customer with
exactly one purchase row (k = 1, so 1 choose 2 = 0) contributes no
candidate pair and therefore never appears in any affinity pair, and
only customers with two or more rows generate pairs. -/
theorem affinity_candidate_pairs_choose_two (cd : List CustomerRecord) (email : String) :
    ((coPurchasesOf cd).filter (fun cp => decide (cp.customer = email))).length =
      ((cd.filter (fun c => decide (c.customerEmail = email))).length).choose 2 := by
  rw [coPurchases_filter_eq, pairsFrom_length]

/-- C10: generateInsightSummaries is total on empty analyses: an empty
segment table yields absent top, bottom, and highest-efficiency
segments and count 0; an empty affinity table yields an absent top
pair and counts 0; an empty profile table yields an absent top
customer, NaN mean customer efficiency, and counts 0. -/
theorem generateInsightSummaries_total_on_empty :
    (∀ (aa : List AffinityAnalysis) (cp : List CustomerProfile),
        (generateInsightSummaries [] aa cp).segmentInsights = ⟨none, none, none, 0⟩) ∧
    (∀ (sa : List SegmentAnalysis) (cp : List CustomerProfile),
        (generateInsightSummaries sa [] cp).affinityInsights = ⟨none, 0, 0⟩) ∧
    (∀ (sa : List SegmentAnalysis) (aa : List AffinityAnalysis),
        (generateInsightSummaries sa aa []).customerInsights = ⟨none, JSNum.nan, 0, 0⟩) := by
  refine ⟨fun aa cp => rfl, fun sa cp => rfl, fun sa aa => ?_⟩
  simp [generateInsightSummaries, jsum, JSNum.div]

/-- C1 counterexample: on the empty product record set the pipeline
does not return a failure result carrying an error message; it returns
a success result. -/
theorem processFullAnalysis_empty_input_succeeds :
    (processFullAnalysis [] []).success = true ∧ (processFullAnalysis [] []).error = none :=
  ⟨rfl, rfl⟩

/-- A product record whose allocated area is zero. -/
def zeroAreaProduct : ProductRecord :=
  { productName := "Gizmo", productSalesRevenue := 100, unitsSold := 1, squareInches := 0,
    pageNumber := 1, catalogPrice := 10 }

/-- C1 (amended): the pipeline never fails: processFullAnalysis returns
a success result with no error message on every input, the empty and
zero-total-area product sets included; division by zero is not treated
as an error but propagates as non-finite values, as on a zero-area
product whose efficiency index is NaN. -/
theorem processFullAnalysis_never_fails :
    (∀ (productData : List ProductRecord) (customerData : List CustomerRecord),
        (processFullAnalysis productData customerData).success = true ∧
        (processFullAnalysis productData customerData).error = none) ∧
    (calculateProductMetrics [zeroAreaProduct]).map (·.spaceEfficiencyIndex) = [JSNum.nan] := by
  refine ⟨fun productData customerData => ⟨rfl, rfl⟩, ?_⟩
  norm_num [calculateProductMetrics, zeroAreaProduct, JSNum.div, JSNum.mul]

/-- C2: on a nonempty product set of positive total area, every output
row of calculateProductMetrics carries the one shared catalog average
revenue per square inch, the area-weighted quotient of total revenue by
total area, and its own revenue per square inch and space-efficiency
index computed by the quotient formulas of the specification. -/
theorem calculateProductMetrics_catalog_average
    (productData : List ProductRecord)
    (_hne : productData ≠ [])
    (hpos : 0 < (productData.map (·.squareInches)).sum) :
    (calculateProductMetrics productData).length = productData.length ∧
    ∀ row ∈ calculateProductMetrics productData,
      row.catalogAvgRevenuePerSqIn =
        JSNum.fin ((productData.map (·.productSalesRevenue)).sum /
          (productData.map (·.squareInches)).sum) ∧
      row.revenuePerSqIn =
        JSNum.div (JSNum.fin row.productSalesRevenue) (JSNum.fin row.squareInches) ∧
      (row.squareInches ≠ 0 →
        row.revenuePerSqIn = JSNum.fin (row.productSalesRevenue / row.squareInches)) ∧
      row.spaceEfficiencyIndex =
        JSNum.mul (JSNum.div row.revenuePerSqIn row.catalogAvgRevenuePerSqIn) (JSNum.fin 100) := by
  constructor
  · simp [calculateProductMetrics]
  · intro row hrow
    simp only [calculateProductMetrics, List.mem_map] at hrow
    obtain ⟨p, hp, rfl⟩ := hrow
    refine ⟨?_, rfl, ?_, rfl⟩
    · simp [JSNum.div, ne_of_gt hpos]
    · intro hq
      simp only at hq
      simp [JSNum.div, hq]

/-- Sample product records of the specification's worked scenario. -/
def sampleProducts : List ProductRecord :=
  [{ productName := "A", productSalesRevenue := 1000, unitsSold := 5, squareInches := 10,
     pageNumber := 1, catalogPrice := 20 },
   { productName := "B", productSalesRevenue := 500, unitsSold := 5, squareInches := 10,
     pageNumber := 2, catalogPrice := 10 }]

/-- Witness for C2 at the worked scenario of the specification. -/
theorem calculateProductMetrics_catalog_average_witness :
    (sampleProducts ≠ [] ∧ 0 < (sampleProducts.map (·.squareInches)).sum) ∧
    ((calculateProductMetrics sampleProducts).length = sampleProducts.length ∧
      ∀ row ∈ calculateProductMetrics sampleProducts,
        row.catalogAvgRevenuePerSqIn =
          JSNum.fin ((sampleProducts.map (·.productSalesRevenue)).sum /
            (sampleProducts.map (·.squareInches)).sum) ∧
        row.revenuePerSqIn =
          JSNum.div (JSNum.fin row.productSalesRevenue) (JSNum.fin row.squareInches) ∧
        (row.squareInches ≠ 0 →
          row.revenuePerSqIn = JSNum.fin (row.productSalesRevenue / row.squareInches)) ∧
        row.spaceEfficiencyIndex =
          JSNum.mul (JSNum.div row.revenuePerSqIn row.catalogAvgRevenuePerSqIn) (JSNum.fin 100)) :=
  ⟨⟨by simp [sampleProducts], by norm_num [sampleProducts]⟩,
    calculateProductMetrics_catalog_average sampleProducts
      (by simp [sampleProducts]) (by norm_num [sampleProducts])⟩

/-- A sample product of efficiency index 50 under sampleCatalog. -/
def prodA : ProductRecord :=
  { productName := "A", productSalesRevenue := 100, unitsSold := 5, squareInches := 10,
    pageNumber := 1, catalogPrice := 20 }

/-- A sample product of efficiency index 150 under sampleCatalog. -/
def prodB : ProductRecord :=
  { productName := "B", productSalesRevenue := 300, unitsSold := 5, squareInches := 10,
    pageNumber := 1, catalogPrice := 30 }

/-- A customer purchase row with fixed demographics. -/
def custRow (email name : String) (units rev : ℚ) : CustomerRecord :=
  { customerEmail := email, productName := name, unitsPurchased := units,
    revenueGenerated := rev, ageRange := "25-34", incomeTier := "High", location := "West" }

/-- C3 counterexample: a customer who bought product A in two rows
produces the self-pair (A, A) as an affinity output row, so anchor and
bought-with product coincide; no name-equality check excludes it. -/
theorem affinity_self_pair_appears :
    (generateAffinityAnalysis [custRow "c1" "A" 1 10, custRow "c1" "A" 2 20]
      (calculateProductMetrics [prodA])).map
        (fun r => (r.anchorProduct, r.boughtWithProduct)) = [("A", "A")] := by
  norm_num +decide [generateAffinityAnalysis, coPurchasesOf, groupBy, dedupKeys, pairsFrom,
    pairKey, jsSplitOn, splitGo, findProduct, calculateProductMetrics, custRow, prodA,
    roundTo1, jsum, JSNum.add, JSNum.mul, JSNum.div, JSNum.round, orderByDesc, insertDesc,
    JSNum.ltb, List.filterMap_cons, List.find?_cons, List.foldl_cons]

/-- C3 (amended): the source has no name-equality check, so a customer
who bought the same product in several rows produces the product paired
with itself; all of that customer's candidate pairs land in one
self-pair output row whose co-purchase count is the number of row
pairs, here 3 rows of product B giving the row (B, B) with count 3. -/
theorem affinity_self_pair_from_repeated_rows :
    (generateAffinityAnalysis
      [custRow "c3" "B" 1 10, custRow "c3" "B" 1 20, custRow "c3" "B" 2 30]
      (calculateProductMetrics [prodA, prodB])).map
        (fun r => (r.anchorProduct, r.boughtWithProduct, r.coPurchases)) = [("B", "B", 3)] := by
  norm_num +decide [generateAffinityAnalysis, coPurchasesOf, groupBy, dedupKeys, pairsFrom,
    pairKey, jsSplitOn, splitGo, findProduct, calculateProductMetrics, custRow, prodA, prodB,
    roundTo1, jsum, JSNum.add, JSNum.mul, JSNum.div, JSNum.round, orderByDesc, insertDesc,
    JSNum.ltb, List.filterMap_cons, List.find?_cons, List.foldl_cons]

/-- C6 counterexample: with a product name that embeds the separator,
the two ordered pairs (B, A) and (A, B) both appear as distinct output
rows: one customer bought the products named B + A and Zz, whose
bucket key B + A + Zz splits back to anchor B and bought-with A, while
another customer bought A and B. -/
theorem affinity_reversed_pair_rows_both_appear :
    (generateAffinityAnalysis
      [custRow "c1" "B + A" 1 10, custRow "c1" "Zz" 1 10,
       custRow "c2" "A" 1 10, custRow "c2" "B" 1 10]
      (calculateProductMetrics [prodA, prodB])).map
        (fun r => (r.anchorProduct, r.boughtWithProduct)) = [("B", "A"), ("A", "B")] := by
  have h1 : ("B + A" ++ " + " ++ "Zz").data =
      ['B', ' ', '+', ' ', 'A', ' ', '+', ' ', 'Z', 'z'] := by decide
  have h2 : ("A" ++ " + " ++ "B").data = ['A', ' ', '+', ' ', 'B'] := by decide
  norm_num +decide [generateAffinityAnalysis, coPurchasesOf, groupBy, dedupKeys, pairsFrom,
    pairKey, jsSplitOn, splitGo, findProduct, calculateProductMetrics, custRow, prodA, prodB,
    roundTo1, jsum, JSNum.add, JSNum.mul, JSNum.div, JSNum.round, orderByDesc, insertDesc,
    JSNum.ltb, h1, h2, List.filterMap_cons, List.find?_cons, List.foldl_cons]

/-- C6 (amended): the normalized affinity key is order-independent,
pairKey a b = pairKey b a for all names, so a customer who bought B
then A lands in the same bucket as one who bought A then B, as the
concrete reversed-order runs confirm; only separator-embedding names
defeat the never-both-appear consequence. -/
theorem pairKey_order_independent :
    (∀ a b : String, pairKey a b = pairKey b a) ∧
    (generateAffinityAnalysis [custRow "c1" "B" 1 10, custRow "c1" "A" 1 10]
        (calculateProductMetrics [prodA, prodB]) =
      generateAffinityAnalysis [custRow "c1" "A" 1 10, custRow "c1" "B" 1 10]
        (calculateProductMetrics [prodA, prodB])) := by
  constructor
  · intro a b
    rw [pairKey, pairKey]
    rcases lt_trichotomy a.data b.data with h | h | h
    · rw [if_neg (asymm h), if_pos h]
    · have hab : a = b := congrArg String.mk h
      rw [hab]
    · rw [if_pos h, if_neg (asymm h)]
  · norm_num +decide [generateAffinityAnalysis, coPurchasesOf, groupBy, dedupKeys, pairsFrom,
      pairKey, jsSplitOn, splitGo, findProduct, calculateProductMetrics, custRow, prodA, prodB,
      roundTo1, jsum, JSNum.add, JSNum.mul, JSNum.div, JSNum.round, orderByDesc, insertDesc,
      JSNum.ltb, List.filterMap_cons, List.find?_cons, List.foldl_cons]

/-- C5 counterexample: the record of customer c1 naming the unmatched
product A + B is not dropped from the affinity computation: together
with the other unmatched record Zz it fabricates the output pair
(A, B), which vanishes when the unmatched records are filtered away. -/
theorem unmatched_record_not_dropped_from_affinity :
    ((generateAffinityAnalysis [custRow "c1" "A + B" 1 10, custRow "c1" "Zz" 1 10]
        (calculateProductMetrics [prodA, prodB])).map
      (fun r => (r.anchorProduct, r.boughtWithProduct, r.coPurchases)) = [("A", "B", 1)]) ∧
    generateAffinityAnalysis
      (([custRow "c1" "A + B" 1 10, custRow "c1" "Zz" 1 10]).filter
        (fun c => (findProduct (calculateProductMetrics [prodA, prodB]) c.productName).isSome))
      (calculateProductMetrics [prodA, prodB]) = [] := by
  constructor
  · have h1 : ("A + B" ++ " + " ++ "Zz").data =
        ['A', ' ', '+', ' ', 'B', ' ', '+', ' ', 'Z', 'z'] := by decide
    norm_num +decide [generateAffinityAnalysis, coPurchasesOf, groupBy, dedupKeys, pairsFrom,
      pairKey, jsSplitOn, splitGo, findProduct, calculateProductMetrics, custRow, prodA, prodB,
      roundTo1, jsum, JSNum.add, JSNum.mul, JSNum.div, JSNum.round, orderByDesc, insertDesc,
      JSNum.ltb, h1, List.filterMap_cons, List.find?_cons, List.foldl_cons]
  · norm_num +decide [generateAffinityAnalysis, coPurchasesOf, groupBy, dedupKeys, pairsFrom,
      pairKey, jsSplitOn, splitGo, findProduct, calculateProductMetrics, custRow, prodA, prodB,
      orderByDesc, List.filterMap_cons, List.find?_cons, List.foldl_cons]

/-- C5 (amended): a customer record whose product name has no exact
match is silently dropped from the segment and profile computations:
removing all unmatched records changes neither output, the matched
records are still processed, and the run never aborts since every
operation is total. In the affinity computation unmatched names fail
the per-bucket lookup, but a record whose name embeds the pair
separator can still influence the output. -/
theorem unmatched_records_dropped_segment_profiles
    (cd : List CustomerRecord) (pm : List EnrichedProduct) :
    generateSegmentAnalysis (cd.filter (fun c => (findProduct pm c.productName).isSome)) pm =
      generateSegmentAnalysis cd pm ∧
    generateCustomerProfiles (cd.filter (fun c => (findProduct pm c.productName).isSome)) pm =
      generateCustomerProfiles cd pm := by
  constructor
  · have hpred : (fun c : CustomerRecord => (findProduct pm c.productName).isSome) =
        (fun c => (joinCustomer pm c).isSome) := by
      funext c
      simp [joinCustomer]
    simp only [generateSegmentAnalysis]
    rw [hpred, filterMap_filter_isSome]
  · have hpred : (fun c : CustomerRecord => (findProduct pm c.productName).isSome) =
        (fun c => ((findProduct pm c.productName).map (fun p =>
          { toCustomerRecord := c,
            spaceEfficiencyIndex := p.spaceEfficiencyIndex : EnrichedCustomer })).isSome) := by
      funext c
      simp
    simp only [generateCustomerProfiles]
    rw [hpred, filterMap_filter_isSome]

/-- C4 (amended): a segment whose total area consumed is zero is not
signaled as a failure; the aggregator silently emits its row, whose
revenue per square inch is Infinity when the segment revenue is
positive, NaN when it is zero, and negative Infinity when negative. -/
theorem generateSegmentAnalysis_zero_area_not_signaled
    (cd : List CustomerRecord) (pm : List EnrichedProduct) (row : SegmentAnalysis)
    (hmem : row ∈ generateSegmentAnalysis cd pm)
    (h0 : row.spaceConsumed = 0) :
    (0 < row.totalRevenue → row.revenuePerSqIn = JSNum.posInf) ∧
    (row.totalRevenue = 0 → row.revenuePerSqIn = JSNum.nan) ∧
    (row.totalRevenue < 0 → row.revenuePerSqIn = JSNum.negInf) := by
  simp only [generateSegmentAnalysis] at hmem
  rw [mem_orderByDesc] at hmem
  obtain ⟨g, hg, rfl⟩ := List.mem_map.mp hmem
  simp only at h0 ⊢
  rw [h0]
  refine ⟨fun hR => ?_, fun hR => ?_, fun hR => ?_⟩
  · simp only at hR
    norm_num [roundTo2, JSNum.div, JSNum.mul, JSNum.round, hR, asymm hR]
  · simp only at hR
    norm_num [roundTo2, JSNum.div, JSNum.mul, JSNum.round, hR]
  · simp only at hR
    norm_num [roundTo2, JSNum.div, JSNum.mul, JSNum.round, hR, asymm hR]

/-- The segment row produced for one customer buying zero units of
product A: zero area consumed, Infinity revenue per square inch. -/
def segRowW : SegmentAnalysis :=
  { segment := "High Income West", customers := 1, totalRevenue := 50,
    weightedAvgSEI := JSNum.fin 100, spaceConsumed := 0, revenuePerSqIn := JSNum.posInf }

/-- Witness for C4 (amended) at a run whose only segment consumed zero
area and earned positive revenue. -/
theorem generateSegmentAnalysis_zero_area_not_signaled_witness :
    (segRowW ∈ generateSegmentAnalysis [custRow "c1" "A" 0 50] (calculateProductMetrics [prodA]) ∧
      segRowW.spaceConsumed = 0) ∧
    ((0 < segRowW.totalRevenue → segRowW.revenuePerSqIn = JSNum.posInf) ∧
     (segRowW.totalRevenue = 0 → segRowW.revenuePerSqIn = JSNum.nan) ∧
     (segRowW.totalRevenue < 0 → segRowW.revenuePerSqIn = JSNum.negInf)) := by
  have hm : generateSegmentAnalysis [custRow "c1" "A" 0 50] (calculateProductMetrics [prodA]) =
      [segRowW] := by
    norm_num +decide [generateSegmentAnalysis, joinCustomer, findProduct, segmentLabel,
      groupBy, dedupKeys, calculateProductMetrics, custRow, prodA, segRowW,
      roundTo1, roundTo2, jsum, JSNum.add, JSNum.mul, JSNum.div, JSNum.round,
      orderByDesc, insertDesc, JSNum.ltb, List.filterMap_cons, List.find?_cons, List.foldl_cons]
  have hmem : segRowW ∈ generateSegmentAnalysis [custRow "c1" "A" 0 50]
      (calculateProductMetrics [prodA]) := by
    rw [hm]
    exact List.mem_singleton.mpr rfl
  have h0 : segRowW.spaceConsumed = 0 := rfl
  exact ⟨⟨hmem, h0⟩, generateSegmentAnalysis_zero_area_not_signaled _ _ _ hmem h0⟩

/-- A product record with zero sales revenue and positive area. -/
def zeroRevenueProduct : ProductRecord :=
  { productName := "A", productSalesRevenue := 0, unitsSold := 1, squareInches := 10,
    pageNumber := 1, catalogPrice := 5 }

/-- C8 counterexample: a zero-revenue product alone on its page has
page-position-ratio NaN, not 1.0: its revenue per square inch and its
page average are both zero and their quotient is zero over zero. -/
theorem pagePositionRatio_nan_on_zero_revenue :
    (calculatePageMetrics (calculateProductMetrics [zeroRevenueProduct])).map
      (fun r => (r.pagePositionRatio, r.pageAvgRevenuePerSqIn)) =
      [(JSNum.nan, JSNum.fin 0)] := by
  norm_num +decide [calculatePageMetrics, calculateProductMetrics, zeroRevenueProduct,
    JSNum.div, JSNum.mul, List.filter_cons]


/-- C8 (amended): a product alone on its page whose area and revenue
are both nonzero has page-position-ratio exactly 1 and page average
revenue per square inch equal to its own revenue per square inch; with
zero revenue the ratio degenerates to NaN instead. -/
theorem calculatePageMetrics_alone_on_page
    (productData : List ProductRecord) (row : EnrichedProduct)
    (hmem : row ∈ calculatePageMetrics (calculateProductMetrics productData))
    (hcount : (productData.countP (fun q => decide (q.pageNumber = row.pageNumber))) = 1)
    (harea : row.squareInches ≠ 0) (hrev : row.productSalesRevenue ≠ 0) :
    row.pagePositionRatio = JSNum.fin 1 ∧ row.pageAvgRevenuePerSqIn = row.revenuePerSqIn := by
  simp only [calculatePageMetrics, List.mem_map] at hmem
  obtain ⟨e, he, rfl⟩ := hmem
  have he' := he
  simp only [calculateProductMetrics, List.mem_map] at he'
  obtain ⟨p, hp, rfl⟩ := he'
  have hcount' : (calculateProductMetrics productData).countP
      (fun q => decide (q.pageNumber = p.pageNumber)) = 1 := by
    rw [calculateProductMetrics, List.countP_map]
    convert hcount using 1
  have hpred : (fun q : EnrichedProduct => decide (q.pageNumber = p.pageNumber))
      ({ p with
          revenuePerSqIn := JSNum.div (.fin p.productSalesRevenue) (.fin p.squareInches)
          spaceEfficiencyIndex := JSNum.mul (JSNum.div
            (JSNum.div (.fin p.productSalesRevenue) (.fin p.squareInches))
            (JSNum.div (.fin ((productData.map (·.productSalesRevenue)).sum))
              (.fin ((productData.map (·.squareInches)).sum)))) (.fin 100)
          catalogAvgRevenuePerSqIn := JSNum.div
            (.fin ((productData.map (·.productSalesRevenue)).sum))
            (.fin ((productData.map (·.squareInches)).sum))
          pageAvgRevenuePerSqIn := .fin 0
          pagePositionRatio := .fin 0 } : EnrichedProduct) = true := by
    simp
  have hfilter : (calculateProductMetrics productData).filter
      (fun q => decide (q.pageNumber = p.pageNumber)) = [_] :=
    filter_eq_singleton_of_countP hcount' he hpred
  rw [hfilter]
  simp only [List.map_cons, List.map_nil, List.sum_cons, List.sum_nil, add_zero]
  have hrps : JSNum.div (JSNum.fin p.productSalesRevenue) (JSNum.fin p.squareInches) =
      JSNum.fin (p.productSalesRevenue / p.squareInches) := by
    simp [JSNum.div, harea]
  rw [hrps]
  have hq : p.productSalesRevenue / p.squareInches ≠ 0 := div_ne_zero hrev harea
  constructor
  · simp [JSNum.div, hq, div_self hq]
  · trivial

/-- The enriched row of product A alone in the catalog: ratio exactly 1. -/
def rowAW : EnrichedProduct :=
  { toProductRecord := prodA, revenuePerSqIn := JSNum.fin 10,
    spaceEfficiencyIndex := JSNum.fin 100, catalogAvgRevenuePerSqIn := JSNum.fin 10,
    pageAvgRevenuePerSqIn := JSNum.fin 10, pagePositionRatio := JSNum.fin 1 }

/-- Witness for C8 (amended) at a one-product catalog. -/
theorem calculatePageMetrics_alone_on_page_witness :
    (rowAW ∈ calculatePageMetrics (calculateProductMetrics [prodA]) ∧
      ([prodA].countP (fun q => decide (q.pageNumber = rowAW.pageNumber))) = 1 ∧
      rowAW.squareInches ≠ 0 ∧ rowAW.productSalesRevenue ≠ 0) ∧
    (rowAW.pagePositionRatio = JSNum.fin 1 ∧
      rowAW.pageAvgRevenuePerSqIn = rowAW.revenuePerSqIn) := by
  have hm : calculatePageMetrics (calculateProductMetrics [prodA]) = [rowAW] := by
    norm_num +decide [calculatePageMetrics, calculateProductMetrics, prodA, rowAW,
      JSNum.div, JSNum.mul, List.filter_cons]
  have hmem : rowAW ∈ calculatePageMetrics (calculateProductMetrics [prodA]) := by
    rw [hm]
    exact List.mem_singleton.mpr rfl
  have hcount : ([prodA].countP (fun q => decide (q.pageNumber = rowAW.pageNumber))) = 1 := by
    norm_num [prodA, rowAW, List.countP_cons]
  have harea : rowAW.squareInches ≠ 0 := by norm_num [prodA, rowAW]
  have hrev : rowAW.productSalesRevenue ≠ 0 := by norm_num [prodA, rowAW]
  exact ⟨⟨hmem, hcount, harea, hrev⟩,
    calculatePageMetrics_alone_on_page [prodA] rowAW hmem hcount harea hrev⟩

/-- C9 counterexample: a customer whose single purchase row has
Revenue Generated 0 has all rows of equal revenue, yet the reported
revenueWeightedSEI is NaN (zero divided by zero total spend) while
avgSEI is 100, so the two reported values do not coincide. -/
theorem revenueWeightedSEI_nan_on_zero_revenue :
    ((generateCustomerProfiles [custRow "c4" "A" 1 0] (calculateProductMetrics [prodA])).map
      (fun p => (p.avgSEI, p.revenueWeightedSEI))) = [(JSNum.fin 100, JSNum.nan)] := by
  norm_num +decide [generateCustomerProfiles, findProduct, groupBy, dedupKeys,
    calculateProductMetrics, custRow, prodA, roundTo1, jsum, JSNum.add, JSNum.mul, JSNum.div,
    JSNum.round, orderByDesc, insertDesc, JSNum.ltb, List.headI, List.filterMap_cons,
    List.find?_cons, List.foldl_cons]

/-- C9 (amended): when every purchase row of a customer carries the
same nonzero revenue, the revenue weights cancel exactly and the
reported revenueWeightedSEI equals the reported avgSEI; with common
revenue zero the weighted value degenerates to NaN instead. -/
theorem generateCustomerProfiles_equal_revenue_cancels
    (cd : List CustomerRecord) (pm : List EnrichedProduct) (email : String) (r : ℚ)
    (hr : r ≠ 0)
    (hall : ∀ c ∈ cd, c.customerEmail = email → c.revenueGenerated = r) :
    ∀ prof ∈ generateCustomerProfiles cd pm, prof.customerEmail = email →
      prof.revenueWeightedSEI = prof.avgSEI := by
  intro prof hmem hemail
  simp only [generateCustomerProfiles] at hmem
  rw [mem_orderByDesc] at hmem
  obtain ⟨g, hg, rfl⟩ := List.mem_map.mp hmem
  obtain ⟨k, purchases⟩ := g
  have hk : k = email := hemail
  subst hk
  have hgb := groupBy_mem_eq hg
  have hne := groupBy_mem_ne_nil hg
  have hprev : ∀ p ∈ purchases, p.revenueGenerated = r := by
    intro p hp
    rw [hgb.1] at hp
    obtain ⟨hpE, hpk⟩ := List.mem_filter.mp hp
    obtain ⟨c, hc, hjoin⟩ := List.mem_filterMap.mp hpE
    obtain ⟨pmp, hfind, hbuild⟩ := Option.map_eq_some'.mp hjoin
    have hrev : p.revenueGenerated = c.revenueGenerated := by rw [← hbuild]
    have hcem : p.customerEmail = c.customerEmail := by rw [← hbuild]
    simp only [decide_eq_true_eq] at hpk
    rw [hrev]
    exact hall c hc (by rw [← hcem]; exact hpk)
  have hlenpos : 0 < purchases.length := List.length_pos.mpr hne
  have hlenQ : 0 < (purchases.length : ℚ) := by exact_mod_cast hlenpos
  dsimp only
  have hmapr : purchases.map (fun p => JSNum.mul (.fin p.revenueGenerated) p.spaceEfficiencyIndex) =
      (purchases.map (·.spaceEfficiencyIndex)).map (fun s => JSNum.mul (JSNum.fin r) s) := by
    rw [List.map_map]
    exact List.map_congr_left (fun p hp => by simp [Function.comp_def, hprev p hp])
  have hts : (purchases.map (·.revenueGenerated)).sum = (purchases.length : ℚ) * r := by
    have : purchases.map (·.revenueGenerated) = purchases.map (fun _ => r) :=
      List.map_congr_left (fun p hp => hprev p hp)
    rw [this, List.map_const']
    simp [List.sum_replicate, nsmul_eq_mul]
  rw [hmapr, jsum_map_mulFin, hts, JSNum.div_mulFin_cancel r _ _ hr hlenQ]

/-- Witness for C9 (amended): a customer with two equal-revenue rows. -/
theorem generateCustomerProfiles_equal_revenue_cancels_witness :
    ((50 : ℚ) ≠ 0 ∧
      (∀ c ∈ [custRow "c5" "A" 1 50, custRow "c5" "B" 1 50],
        c.customerEmail = "c5" → c.revenueGenerated = 50)) ∧
    (∀ prof ∈ generateCustomerProfiles [custRow "c5" "A" 1 50, custRow "c5" "B" 1 50]
        (calculateProductMetrics [prodA, prodB]),
      prof.customerEmail = "c5" → prof.revenueWeightedSEI = prof.avgSEI) := by
  have h1 : (50 : ℚ) ≠ 0 := by norm_num
  have h2 : ∀ c ∈ [custRow "c5" "A" 1 50, custRow "c5" "B" 1 50],
      c.customerEmail = "c5" → c.revenueGenerated = 50 := by
    intro c hc _
    simp only [List.mem_cons, List.not_mem_nil, or_false] at hc
    rcases hc with rfl | rfl <;> rfl
  exact ⟨⟨h1, h2⟩,
    generateCustomerProfiles_equal_revenue_cancels _ _ "c5" 50 h1 h2⟩

/-- C4 counterexample: a run whose only segment consumed zero area
(one customer bought zero units of product A) is not signaled as a
failure; the aggregator silently returns the segment row with
revenue per square inch equal to Infinity. -/
theorem segment_zero_area_produces_infinity :
    (generateSegmentAnalysis [custRow "c1" "A" 0 50] (calculateProductMetrics [prodA])).map
      (fun row => (row.spaceConsumed, row.revenuePerSqIn)) = [(0, JSNum.posInf)] := by
  norm_num +decide [generateSegmentAnalysis, joinCustomer, findProduct, segmentLabel,
    groupBy, dedupKeys, calculateProductMetrics, custRow, prodA,
    roundTo1, roundTo2, jsum, JSNum.add, JSNum.mul, JSNum.div, JSNum.round,
    orderByDesc, insertDesc, JSNum.ltb, List.filterMap_cons, List.find?_cons, List.foldl_cons]
